import Mathlib

/-!
Verification of the supervised-training-harness specification against the
repository's notebook code (CIFAR-10 / Fashion-MNIST classification loops and
the Penn-Fudan `PennFudanDataset` adapter for Mask R-CNN fine-tuning).

The Python source is shallowly embedded: floating-point scalars are modelled
as exact rationals (`Rat`), numpy/torch tensors as nested lists, fallible
operations (out-of-range indexing, `np.min` on an empty array) as `Option`,
and the notebook's straight-line training-loop body as an explicit event
trace.  Every definition below is translated from the notebook source; the
few definitions written from the specification's wording instead (for
refinement comparisons) say so in their doc comment.
-/

/-! ## Python list indexing

`self.imgs[idx]` in `PennFudanDataset.__getitem__` uses Python list
indexing: indices in `[0, len)` are served directly, indices in `[-len, 0)`
wrap around to `len + idx`, and anything else raises `IndexError`
(modelled as `none`). -/

/-- Python list indexing semantics: nonnegative indices below the length are
served directly, negative indices wrap (`l[len + i]` for `-len ≤ i < 0`),
everything else is an `IndexError`, modelled as `none`. -/
def pyGet {α : Type} (l : List α) (i : Int) : Option α :=
  if 0 ≤ i then l.get? i.toNat
  else if (-i).toNat ≤ l.length then l.get? (l.length - (-i).toNat)
  else none

/-! ## Mask grids and bounding boxes (PennFudanDataset.__getitem__) -/

/-- A color-encoded instance mask image, as produced by `np.array(mask)`:
a grid of pixel color ids, `0` being background. -/
abbrev Grid := List (List Nat)

/-- A boolean instance mask (`mask == obj_ids[i]` in the source). -/
abbrev BoolGrid := List (List Bool)

/-- `np.unique`: the distinct values of a list, in ascending order. -/
def uniqueSorted (l : List Nat) : List Nat :=
  List.insertionSort (· ≤ ·) l.dedup

/-- The `(row, column)` coordinates of the true pixels of a boolean mask,
as returned by `np.where(masks[i])` (`pos[0]` are the rows, `pos[1]` the
columns). -/
def truePixels (m : BoolGrid) : List (Nat × Nat) :=
  (m.enum.map (fun rc =>
    rc.2.enum.filterMap (fun cb => if cb.2 then some (rc.1, cb.1) else none))).flatten

/-- A bounding box `[xmin, ymin, xmax, ymax]` as appended to `boxes` in
`PennFudanDataset.__getitem__`. -/
structure Box where
  xmin : Nat
  ymin : Nat
  xmax : Nat
  ymax : Nat
deriving DecidableEq, Repr

/-- The per-instance box computation of `__getitem__`:
`xmin = np.min(pos[1])`, `xmax = np.max(pos[1])`, `ymin = np.min(pos[0])`,
`ymax = np.max(pos[0])`.  `np.min` / `np.max` on an empty coordinate array
raise `ValueError`; this error path is modelled as `none`. -/
def boxOfMask (m : BoolGrid) : Option Box :=
  match truePixels m with
  | [] => none
  | p :: ps =>
    some { xmin := (ps.map Prod.snd).foldl min p.2
           ymin := (ps.map Prod.fst).foldl min p.1
           xmax := (ps.map Prod.snd).foldl max p.2
           ymax := (ps.map Prod.fst).foldl max p.1 }

/-- Sequences a list of fallible results; the first error aborts the whole
computation (an uncaught Python exception aborts the `for i in range(num_objs)`
loop of `__getitem__`). -/
def seqOpt {α : Type} : List (Option α) → Option (List α)
  | [] => some []
  | none :: _ => none
  | some a :: rest =>
    match seqOpt rest with
    | some as => some (a :: as)
    | none => none

/-- The `boxes` loop of `__getitem__`: one box per binary instance mask. -/
def getBoxes (ms : List BoolGrid) : Option (List Box) :=
  seqOpt (ms.map boxOfMask)

/-- The `target` dict assembled by `PennFudanDataset.__getitem__`. -/
structure Target where
  boxes : List Box
  labels : List Nat
  masksT : List BoolGrid
  imageId : Int
  area : List Nat
  iscrowd : List Nat
deriving DecidableEq, Repr

/-- The core of `PennFudanDataset.__getitem__` after the mask file has been
decoded into a `Grid`: `obj_ids = np.unique(mask)[1:]`, binary mask
decomposition `masks = mask == obj_ids[:, None, None]`, per-mask boxes,
`labels = ones(num_objs)`, `image_id = idx`,
`area = (boxes[:,3]-boxes[:,1])*(boxes[:,2]-boxes[:,0])`, and
`iscrowd = zeros(num_objs)`.  A mask with no non-background color is a
further error path of the source: with `num_objs = 0` the `boxes` list is
empty, so `torch.as_tensor([], dtype=torch.float32)` is a 1-D empty tensor
and the 2-D indexing `boxes[:, 3]` on the `area` line raises `IndexError`;
that path is modelled by the empty-boxes check below. -/
def buildTarget (idx : Int) (mask : Grid) : Option Target :=
  let objIds := (uniqueSorted mask.flatten).drop 1
  let instMasks := objIds.map (fun c => mask.map (fun row => row.map (fun v => v == c)))
  (getBoxes instMasks).bind (fun boxes =>
    if boxes.isEmpty then none
    else some
      { boxes := boxes
        labels := List.replicate objIds.length 1
        masksT := instMasks
        imageId := idx
        area := boxes.map (fun b => (b.ymax - b.ymin) * (b.xmax - b.xmin))
        iscrowd := List.replicate objIds.length 0 })

/-! ## PennFudanDataset -/

/-- The dataset object: `self.imgs`, `self.masks` and the optional
`self.transforms` hook (`if self.transforms is not None: ...`). -/
structure PennFudanDataset where
  imgs : List String
  masks : List String
  transforms : Option ((String × Target) → (String × Target))

/-- `PennFudanDataset.__init__`: sorts the two directory listings
(`list(sorted(os.listdir(...)))`) and stores them, together with the
transforms hook.  Python's `sorted` is a deterministic comparison sort,
modelled by `List.insertionSort` on the lexicographic string order.
No validation of any kind is performed. -/
def pennFudanInit (imgListing maskListing : List String)
    (transforms : Option ((String × Target) → (String × Target))) : PennFudanDataset :=
  { imgs := List.insertionSort (· ≤ ·) imgListing
    masks := List.insertionSort (· ≤ ·) maskListing
    transforms := transforms }

/-- `PennFudanDataset.__len__`: `return len(self.imgs)`. -/
def pennFudanLen (d : PennFudanDataset) : Nat :=
  d.imgs.length

/-- The transforms application at the end of `__getitem__`. -/
def applyTransforms (tr : Option ((String × Target) → (String × Target)))
    (s : String × Target) : String × Target :=
  match tr with
  | some f => f s
  | none => s

/-- `PennFudanDataset.__getitem__`: looks up the image and mask filenames with
Python list indexing, decodes the mask via the environment `env` (the
filesystem's mask-image contents), builds the target, and applies the
optional transforms.  Any failure (index error, empty-mask `ValueError`)
propagates, modelled as `none`.  The returned image is represented by its
filename. -/
def pennFudanGetItem (env : String → Grid) (d : PennFudanDataset) (idx : Int) :
    Option (String × Target) :=
  match pyGet d.imgs idx, pyGet d.masks idx with
  | some imgFile, some maskFile =>
    (buildTarget idx (env maskFile)).map (fun t => applyTransforms d.transforms (imgFile, t))
  | _, _ => none

/-! ## Train/test split (ex3, `Subset` cell)

`indices = torch.randperm(len(dataset)).tolist()` followed by
`Subset(dataset, indices[:-50])` and `Subset(dataset_test, indices[-50:])`. -/

/-- The training-split indices: Python `indices[:-50]`, i.e. all but the last
50 entries (everything up to `len - 50`; empty when `len ≤ 50`). -/
def trainIndices (indices : List Nat) : List Nat :=
  indices.take (indices.length - 50)

/-- The evaluation-split indices: Python `indices[-50:]`, the last 50 entries
(the whole list when `len ≤ 50`). -/
def testIndices (indices : List Nat) : List Nat :=
  indices.drop (indices.length - 50)

/-- A training run's interaction with the dataset object: a sequence of
`__getitem__` calls threaded through the dataset state.  The source defines
no operation that writes to the dataset, so each step returns the state
unchanged alongside the fetched sample. -/
def runDataset (env : String → Grid) :
    PennFudanDataset → List Int → PennFudanDataset × List (Option (String × Target))
  | d, [] => (d, [])
  | d, i :: is =>
    let r := pennFudanGetItem env d i
    let rest := runDataset env d is
    (rest.1, r :: rest.2)

/-! ## Classification harness (part_000 CIFAR notebook, ex1 Fashion-MNIST)

The two notebooks define textually identical `train`/`test` loops (only the
reporting cadence constant differs: 500 for CIFAR, 100 for Fashion-MNIST),
so they are embedded once, with the cadence as a parameter instantiated per
run. -/

/-- A model: trainable parameters, the train/eval mode flag set by
`model.train()` / `model.eval()`, and the forward computation (a function of
the mode flag and the parameters, as `nn.Module.__call__` is). -/
structure Model (α : Type) where
  params : List Rat
  training : Bool
  forward : Bool → List Rat → α → List Rat

/-- A data loader: `len(dataloader.dataset)` is `datasetSize`,
`len(dataloader)` is `batches.length`, and each batch is a list of
(input, class-index) samples. -/
structure Loader (α : Type) where
  datasetSize : Nat
  batches : List (List (α × Nat))

/-- `pred.argmax(1)` for one sample: the index of the first maximal logit. -/
def argmaxIdx : List Rat → Nat
  | [] => 0
  | x :: xs => ((List.enumFrom 1 xs).foldl
      (fun best iv => if best.2 < iv.2 then iv else best) (0, x)).1

/-- The batch forward pass `pred = model(X)`. -/
def batchPreds {α : Type} (m : Model α) (b : List (α × Nat)) : List (List Rat) :=
  b.map (fun s => m.forward m.training m.params s.1)

/-- `(pred.argmax(1) == y).sum()` for one batch: the number of samples whose
predicted class equals the target. -/
def batchCorrect {α : Type} (m : Model α) (b : List (α × Nat)) : Nat :=
  ((batchPreds m b).zip (b.map (fun s => s.2))).countP
    (fun py => argmaxIdx py.1 == py.2)

/-- The `test` function of both classification notebooks: switch to eval mode,
accumulate `test_loss += loss_fn(pred, y).item()` and
`correct += (pred.argmax(1) == y).sum()` over the batches, then divide by
`num_batches` and `size` respectively.  The computed (and printed) pair is
returned together with the model state. -/
def test {α : Type} (dataloader : Loader α) (model : Model α)
    (lossFn : List (List Rat) → List Nat → Rat) : Model α × (Rat × Rat) :=
  let m : Model α := { model with training := false }
  let acc := dataloader.batches.foldl
    (fun acc b =>
      (acc.1 + lossFn (batchPreds m b) (b.map (fun s => s.2)), acc.2 + batchCorrect m b))
    ((0 : Rat), (0 : Nat))
  (m, (acc.1 / (dataloader.batches.length : Rat),
       ((acc.2 : Nat) : Rat) / (dataloader.datasetSize : Rat)))

/-- Written from the specification's wording, for the refinement claim C5:
"accumulates total loss across batches and count of correct predictions
(argmax of prediction equals target); returns
(average_loss = total_loss / num_batches, accuracy = correct / total_samples)". -/
def evaluateSpec {α : Type} (dataloader : Loader α) (model : Model α)
    (lossFn : List (List Rat) → List Nat → Rat) : Rat × Rat :=
  let m : Model α := { model with training := false }
  let totalLoss := (dataloader.batches.map
    (fun b => lossFn (batchPreds m b) (b.map (fun s => s.2)))).sum
  let correct := (dataloader.batches.map (fun b => batchCorrect m b)).sum
  (totalLoss / (dataloader.batches.length : Rat),
   ((correct : Nat) : Rat) / (dataloader.datasetSize : Rat))

/-- The observable actions of one pass of the `train` loop body, in source
order: `pred = model(X)`; `loss = loss_fn(pred, y)`; `optimizer.zero_grad()`;
`loss.backward()`; `optimizer.step()`; and the conditional progress print. -/
inductive TrainEvent
  | forwardE : TrainEvent
  | lossE : TrainEvent
  | zeroGradE : TrainEvent
  | backwardE : TrainEvent
  | stepE : TrainEvent
  | logE : Rat → Nat → TrainEvent
deriving DecidableEq, Repr

/-- The events of one batch body of `train`: the five steps in source order,
then, when `batch % K == 0`, the progress print
`loss: {loss.item()} [{batch * len(X)}/{size}]` carrying the current loss and
`current = batch * len(X)`. -/
def batchEvents (lossV : Rat) (i blen k : Nat) : List TrainEvent :=
  [TrainEvent.forwardE, TrainEvent.lossE, TrainEvent.zeroGradE,
   TrainEvent.backwardE, TrainEvent.stepE] ++
  (if i % k = 0 then [TrainEvent.logE lossV (i * blen)] else [])

/-- One iteration of `for batch, (X, y) in enumerate(dataloader)`: the loss is
computed from the current parameters, `optimizer.step()` replaces them via the
(abstract) update rule, and the batch's events are appended to the trace. -/
def trainStep {α : Type} (lossFn : List (List Rat) → List Nat → Rat)
    (optStep : List Rat → List Rat) (k : Nat)
    (acc : Model α × List TrainEvent) (ib : Nat × List (α × Nat)) :
    Model α × List TrainEvent :=
  ({ acc.1 with params := optStep acc.1.params },
   acc.2 ++ batchEvents (lossFn (batchPreds acc.1 ib.2) (ib.2.map (fun s => s.2)))
     ib.1 ib.2.length k)

/-- The `train` function of both classification notebooks: `model.train()`,
then the enumerated batch loop.  `k` is the reporting cadence (500 in the
CIFAR run, 100 in the Fashion-MNIST run); `optStep` abstracts the framework's
`optimizer.step()` parameter update (the gradient computation lives in the
external autograd engine, not in this repository). -/
def train {α : Type} (dataloader : Loader α) (model : Model α)
    (lossFn : List (List Rat) → List Nat → Rat)
    (optStep : List Rat → List Rat) (k : Nat) : Model α × List TrainEvent :=
  dataloader.batches.enum.foldl (trainStep lossFn optStep k)
    ({ model with training := true }, [])

/-- The progress signals of a trace: the payloads of its `logE` events. -/
def logEvents : List TrainEvent → List (Rat × Nat)
  | [] => []
  | TrainEvent.logE l c :: es => (l, c) :: logEvents es
  | _ :: es => logEvents es

/-- The per-batch event trace of a full run of the `train` loop, written out
recursively: batch `n` runs on the parameters produced by the first `n`
optimizer updates and contributes its `batchEvents` in order.  Used to state
claim C6's trace characterisation. -/
def traceFrom {α : Type} (model : Model α)
    (lossFn : List (List Rat) → List Nat → Rat)
    (optStep : List Rat → List Rat) (k : Nat) :
    Nat → List Rat → List (List (α × Nat)) → List TrainEvent
  | _, _, [] => []
  | n, p, b :: bs =>
    batchEvents
      (lossFn (batchPreds { model with params := p, training := true } b)
        (b.map (fun s => s.2)))
      n b.length k
    ++ traceFrom model lossFn optStep k (n + 1) (optStep p) bs

/-! ## Helper lemmas -/

theorem foldl_pair_sum {β : Type} (f : β → Rat) (g : β → Nat) :
    ∀ (l : List β) (a : Rat) (c : Nat),
      l.foldl (fun acc b => (acc.1 + f b, acc.2 + g b)) (a, c)
        = (a + (l.map f).sum, c + (l.map g).sum)
  | [], a, c => by simp
  | b :: l, a, c => by
    simp only [List.foldl_cons, List.map_cons, List.sum_cons]
    rw [foldl_pair_sum f g l]
    simp [add_assoc]

/-! ## Claim C1 -/

/-- Claim C1: for every model, loader and objective, the evaluation
operation `test` does not mutate any model parameter, and two consecutive
evaluation runs (the second on the model state returned by the first, with no
training in between) return identical (average_loss, accuracy) pairs.
Floating-point scalars are modelled as exact rationals, so "bit-identical"
becomes equality. -/
theorem claimC1_eval_no_mutation {α : Type} (dataloader : Loader α)
    (model : Model α) (lossFn : List (List Rat) → List Nat → Rat) :
    (test dataloader model lossFn).1.params = model.params ∧
    (test dataloader ((test dataloader model lossFn).1) lossFn).2
      = (test dataloader model lossFn).2 :=
  ⟨rfl, rfl⟩

/-! ## Claim C5 -/

/-- Claim C5: the evaluation operation accumulates the total loss over all
batches and the count of samples whose argmax-predicted class equals the
target, and returns the pair
(average_loss = total_loss / num_batches, accuracy = correct / total_samples),
i.e. it refines `evaluateSpec`, which is written from the specification's
words. -/
theorem claimC5_eval_refines_spec {α : Type} (dataloader : Loader α)
    (model : Model α) (lossFn : List (List Rat) → List Nat → Rat) :
    (test dataloader model lossFn).2 = evaluateSpec dataloader model lossFn := by
  dsimp only [test, evaluateSpec]
  rw [foldl_pair_sum]
  simp

/-! ## Claim C6 -/

theorem train_trace_aux {α : Type} (model : Model α)
    (lossFn : List (List Rat) → List Nat → Rat)
    (optStep : List Rat → List Rat) (k : Nat) :
    ∀ (bs : List (List (α × Nat))) (n : Nat) (p : List Rat) (tr : List TrainEvent),
      (List.enumFrom n bs).foldl (trainStep lossFn optStep k)
          ({ model with params := p, training := true }, tr)
        = ({ model with params := optStep^[bs.length] p, training := true },
           tr ++ traceFrom model lossFn optStep k n p bs)
  | [], n, p, tr => by simp [traceFrom]
  | b :: bs, n, p, tr => by
    have h1 : trainStep lossFn optStep k
        ({ model with params := p, training := true }, tr) (n, b)
        = ({ model with params := optStep p, training := true },
           tr ++ batchEvents
             (lossFn (batchPreds { model with params := p, training := true } b)
               (b.map (fun s => s.2))) n b.length k) := rfl
    simp only [List.enumFrom, List.foldl_cons, traceFrom, List.length_cons]
    rw [h1, train_trace_aux model lossFn optStep k bs (n + 1) (optStep p)]
    rw [Function.iterate_succ_apply]
    simp [List.append_assoc]

/-- Claim C6 (amended): for every batch, the five steps occur in the source
order — forward pass, loss computation, gradient clearing, backward pass,
optimizer update — and when `batch % K == 0` a progress signal is emitted
carrying the current loss value and `current = batch_index * len(X)` (the
batch index times the *current* batch's size).  That emitted count equals the
cumulative number of samples processed before the batch only when all batches
share a common size (second conjunct); the original claim's "cumulative
number of samples processed" is refuted by `claimC6_counterexample`.
`K = 500` instantiates the CIFAR run and `K = 100` the Fashion-MNIST run. -/
theorem claimC6_train_order_and_log {α : Type} (dataloader : Loader α)
    (model : Model α) (lossFn : List (List Rat) → List Nat → Rat)
    (optStep : List Rat → List Rat) (k : Nat) :
    (train dataloader model lossFn optStep k).2
      = traceFrom model lossFn optStep k 0 model.params dataloader.batches ∧
    ∀ B, (∀ b ∈ dataloader.batches, b.length = B) →
      ∀ i b, dataloader.batches.get? i = some b →
        i * b.length = ((dataloader.batches.take i).map List.length).sum := by
  constructor
  · have h := train_trace_aux model lossFn optStep k dataloader.batches 0 model.params []
    have h0 : ({ model with training := true } : Model α)
        = { model with params := model.params, training := true } := rfl
    unfold train
    rw [h0]
    have he : dataloader.batches.enum = List.enumFrom 0 dataloader.batches := rfl
    rw [he, h]
    simp
  · intro B hB i b hib
    have hbB : b.length = B := hB b (List.get?_mem hib)
    have hiLen : i < dataloader.batches.length := by
      by_contra hc
      push_neg at hc
      rw [List.get?_eq_none.mpr hc] at hib
      cases hib
    have hmap : (dataloader.batches.take i).map List.length = List.replicate i B := by
      apply List.eq_replicate_iff.mpr
      refine ⟨by simp [List.length_take]; omega, ?_⟩
      intro x hx
      rcases List.mem_map.mp hx with ⟨bb, hbb, rfl⟩
      exact hB bb (List.mem_of_mem_take hbb)
    rw [hmap, hbB, List.sum_replicate, smul_eq_mul]

/-- A constant-output model on trivial inputs, for the C6 instances. -/
def modelCexC6 : Model Unit :=
  { params := [], training := false, forward := fun _ _ _ => [0] }

/-- A constant loss function, for the C6 instances. -/
def lossCexC6 : List (List Rat) → List Nat → Rat := fun _ _ => 0

/-- A loader whose first 100 batches have 2 samples and whose final batch
(index 100, a reporting index for K = 100) has 1 sample. -/
def loaderCexC6 : Loader Unit :=
  { datasetSize := 201
    batches := List.replicate 100 [((), 0), ((), 1)] ++ [[((), 0)]] }

set_option maxRecDepth 20000 in
/-- Claim C6 counterexample: with K = 100 (the Fashion-MNIST cadence) on a
loader whose final batch (index 100) is short, the progress signal emitted at
batch 100 carries `current = 100 * len(X) = 100`, whereas the cumulative
number of samples processed is 200 before that batch (201 including it), so
the signal does not contain the cumulative number of samples processed. -/
theorem claimC6_counterexample :
    logEvents (train loaderCexC6 modelCexC6 lossCexC6 (fun p => p) 100).2
      = [(0, 0), (0, 100)] ∧
    ((loaderCexC6.batches.take 100).map List.length).sum = 200 ∧
    loaderCexC6.batches.length = 101 ∧
    (100 : Nat) ≠ 200 ∧ (100 : Nat) ≠ 201 := by
  decide

/-- An equal-size-batches loader for the C6 witness. -/
def loaderWitC6 : Loader Unit :=
  { datasetSize := 6
    batches := [[((), 0), ((), 1), ((), 2)], [((), 0), ((), 1), ((), 2)]] }

/-- The batch at index 1 of `loaderWitC6`. -/
def batchWitC6 : List (Unit × Nat) := [((), 0), ((), 1), ((), 2)]

/-- Witness for claim C6's second conjunct at a concrete loader with equal
batch sizes. -/
theorem claimC6_witness :
    (∀ b ∈ loaderWitC6.batches, b.length = 3) ∧
    loaderWitC6.batches.get? 1 = some batchWitC6 ∧
    1 * batchWitC6.length = ((loaderWitC6.batches.take 1).map List.length).sum :=
  ⟨by decide, by decide,
   (claimC6_train_order_and_log loaderWitC6 modelCexC6 lossCexC6 (fun p => p) 100).2
     3 (by decide) 1 batchWitC6 (by decide)⟩

/-! ## Dataset helper lemmas -/

theorem get?_isSome_iff {α : Type} (l : List α) (n : Nat) :
    (l.get? n).isSome ↔ n < l.length := by
  rw [Option.isSome_iff_ne_none]
  constructor
  · intro h
    by_contra hc
    push_neg at hc
    exact h (List.get?_eq_none.mpr hc)
  · intro h hn
    rw [List.get?_eq_none] at hn
    omega

theorem pyGet_isSome_iff {α : Type} (l : List α) (i : Int) :
    (pyGet l i).isSome ↔ (-(l.length : Int) ≤ i ∧ i < (l.length : Int)) := by
  unfold pyGet
  by_cases h0 : 0 ≤ i
  · rw [if_pos h0, get?_isSome_iff]
    omega
  · rw [if_neg h0]
    by_cases h1 : (-i).toNat ≤ l.length
    · rw [if_pos h1, get?_isSome_iff]
      omega
    · rw [if_neg h1]
      simp only [Option.isSome_none, Bool.false_eq_true, false_iff]
      omega

theorem seqOpt_eq_none_of_mem {α : Type} :
    ∀ (l : List (Option α)), none ∈ l → seqOpt l = none
  | [], h => by cases h
  | none :: rest, _ => rfl
  | some a :: rest, h => by
    have h2 : none ∈ rest := by
      rcases List.mem_cons.mp h with h1 | h1
      · cases h1
      · exact h1
    simp only [seqOpt, seqOpt_eq_none_of_mem rest h2]

theorem seqOpt_some_forall₂ {α : Type} :
    ∀ (l : List (Option α)) (as : List α), seqOpt l = some as →
      List.Forall₂ (fun o a => o = some a) l as
  | [], as, h => by
    simp only [seqOpt, Option.some.injEq] at h
    subst h
    exact List.Forall₂.nil
  | none :: rest, as, h => by simp [seqOpt] at h
  | some a :: rest, as, h => by
    simp only [seqOpt] at h
    cases h' : seqOpt rest with
    | none => rw [h'] at h; cases h
    | some as' =>
      rw [h'] at h
      simp only [Option.some.injEq] at h
      subst h
      exact List.Forall₂.cons rfl (seqOpt_some_forall₂ rest as' h')

theorem seqOpt_isSome {α : Type} :
    ∀ (l : List (Option α)), (∀ x ∈ l, x.isSome) → (seqOpt l).isSome
  | [], _ => rfl
  | none :: rest, h => by
    have h1 := h none (List.mem_cons_self _ _)
    simp at h1
  | some a :: rest, h => by
    have hr := seqOpt_isSome rest (fun x hx => h x (List.mem_cons_of_mem _ hx))
    simp only [seqOpt]
    cases h' : seqOpt rest with
    | none => rw [h'] at hr; cases hr
    | some as => rfl

theorem getBoxes_forall₂ {ms : List BoolGrid} {bs : List Box}
    (h : getBoxes ms = some bs) :
    List.Forall₂ (fun m b => boxOfMask m = some b) ms bs := by
  have h2 := seqOpt_some_forall₂ _ _ h
  rw [List.forall₂_map_left_iff] at h2
  exact h2

theorem uniqueSorted_sorted (l : List Nat) :
    List.Sorted (· ≤ ·) (uniqueSorted l) :=
  List.sorted_insertionSort _ _

theorem uniqueSorted_nodup (l : List Nat) : (uniqueSorted l).Nodup :=
  ((List.perm_insertionSort _ _).nodup_iff).mpr l.nodup_dedup

theorem mem_uniqueSorted {l : List Nat} {a : Nat} :
    a ∈ uniqueSorted l ↔ a ∈ l := by
  rw [uniqueSorted, List.mem_insertionSort, List.mem_dedup]

theorem uniqueSorted_zero_head {l : List Nat} (h : 0 ∈ l) :
    ∃ rest, uniqueSorted l = 0 :: rest ∧ 0 ∉ rest := by
  have hm : 0 ∈ uniqueSorted l := mem_uniqueSorted.mpr h
  have hs := uniqueSorted_sorted l
  have hn := uniqueSorted_nodup l
  cases hu : uniqueSorted l with
  | nil => rw [hu] at hm; cases hm
  | cons x rest =>
    rw [hu] at hm hs hn
    rcases List.mem_cons.mp hm with h1 | h1
    · subst h1
      exact ⟨rest, rfl, (List.nodup_cons.mp hn).1⟩
    · have hx : x ≤ 0 := (List.sorted_cons.mp hs).1 0 h1
      have hx0 : x = 0 := Nat.le_zero.mp hx
      subst hx0
      exact absurd h1 (List.nodup_cons.mp hn).1

theorem mem_enumFrom_of_mem {α : Type} {b : α} :
    ∀ {l : List α} (n : Nat), b ∈ l → ∃ i, (i, b) ∈ List.enumFrom n l
  | a :: l, n, h => by
    rcases List.mem_cons.mp h with h1 | h1
    · exact ⟨n, by rw [h1]; exact List.mem_cons_self _ _⟩
    · rcases mem_enumFrom_of_mem (n + 1) h1 with ⟨i, hi⟩
      exact ⟨i, List.mem_cons_of_mem _ hi⟩

theorem truePixels_ne_nil {m : BoolGrid} {row : List Bool}
    (hrow : row ∈ m) (hb : true ∈ row) : truePixels m ≠ [] := by
  intro hnil
  unfold truePixels at hnil
  rw [List.flatten_eq_nil_iff] at hnil
  obtain ⟨r, hr⟩ := mem_enumFrom_of_mem 0 hrow
  have h1 := hnil _ (List.mem_map.mpr ⟨(r, row), hr, rfl⟩)
  rw [List.filterMap_eq_nil_iff] at h1
  obtain ⟨c, hc⟩ := mem_enumFrom_of_mem 0 hb
  have h2 := h1 _ hc
  simp at h2

theorem boxOfMask_isSome_of_ne_nil {m : BoolGrid} (h : truePixels m ≠ []) :
    (boxOfMask m).isSome := by
  unfold boxOfMask
  cases htp : truePixels m with
  | nil => exact absurd htp h
  | cons p ps => rfl

theorem boxOfMask_ne_nil_of_some {m : BoolGrid} {b : Box}
    (h : boxOfMask m = some b) : truePixels m ≠ [] := by
  intro hnil
  unfold boxOfMask at h
  rw [hnil] at h
  cases h

theorem foldl_min_le_init : ∀ (l : List Nat) (x : Nat), l.foldl min x ≤ x
  | [], x => le_refl x
  | a :: l, x => le_trans (foldl_min_le_init l (min x a)) (min_le_left x a)

theorem init_le_foldl_max : ∀ (l : List Nat) (x : Nat), x ≤ l.foldl max x
  | [], x => le_refl x
  | a :: l, x => le_trans (le_max_left x a) (init_le_foldl_max l (max x a))

theorem boxOfMask_bounds {m : BoolGrid} {b : Box} (h : boxOfMask m = some b) :
    b.xmin ≤ b.xmax ∧ b.ymin ≤ b.ymax := by
  unfold boxOfMask at h
  cases htp : truePixels m with
  | nil => rw [htp] at h; cases h
  | cons p ps =>
    rw [htp] at h
    simp only [Option.some.injEq] at h
    subst h
    exact ⟨le_trans (foldl_min_le_init _ _) (init_le_foldl_max _ _),
           le_trans (foldl_min_le_init _ _) (init_le_foldl_max _ _)⟩

/-- The instance-mask decomposition `masks = mask == obj_ids[:, None, None]`
of `__getitem__`, named for reuse in lemma statements. -/
def instMasksOf (mask : Grid) : List BoolGrid :=
  ((uniqueSorted mask.flatten).drop 1).map
    (fun c => mask.map (fun row => row.map (fun v => v == c)))

theorem buildTarget_eq (idx : Int) (mask : Grid) :
    buildTarget idx mask = (getBoxes (instMasksOf mask)).bind (fun boxes =>
      if boxes.isEmpty then none
      else some
        { boxes := boxes
          labels := List.replicate ((uniqueSorted mask.flatten).drop 1).length 1
          masksT := instMasksOf mask
          imageId := idx
          area := boxes.map (fun b => (b.ymax - b.ymin) * (b.xmax - b.xmin))
          iscrowd := List.replicate ((uniqueSorted mask.flatten).drop 1).length 0 }) :=
  rfl

theorem isSome_optionMap {α β : Type} (f : α → β) (x : Option α) :
    (Option.map f x).isSome = x.isSome := by
  cases x <;> rfl

theorem getBoxes_instMasks_isSome (mask : Grid) :
    (getBoxes (instMasksOf mask)).isSome := by
  apply seqOpt_isSome
  intro x hx
  rcases List.mem_map.mp hx with ⟨m, hm, rfl⟩
  rcases List.mem_map.mp hm with ⟨c, hc, rfl⟩
  have hcmem : c ∈ uniqueSorted mask.flatten := List.mem_of_mem_drop hc
  have hcval : c ∈ mask.flatten := mem_uniqueSorted.mp hcmem
  rcases List.mem_flatten.mp hcval with ⟨row, hrow, hcrow⟩
  apply boxOfMask_isSome_of_ne_nil
  exact truePixels_ne_nil (List.mem_map.mpr ⟨row, hrow, rfl⟩)
    (List.mem_map.mpr ⟨c, hcrow, by simp⟩)

theorem buildTarget_isSome_iff (idx : Int) (mask : Grid) :
    (buildTarget idx mask).isSome ↔ 2 ≤ (uniqueSorted mask.flatten).length := by
  obtain ⟨boxes, hgb⟩ := Option.isSome_iff_exists.mp (getBoxes_instMasks_isSome mask)
  have hblen : boxes.length = (uniqueSorted mask.flatten).length - 1 := by
    have h1 := (getBoxes_forall₂ hgb).length_eq
    simp only [instMasksOf, List.length_map, List.length_drop] at h1
    exact h1.symm
  rw [buildTarget_eq, hgb, Option.some_bind]
  by_cases hb : boxes.isEmpty
  · rw [if_pos hb]
    rw [List.isEmpty_iff] at hb
    subst hb
    simp only [List.length_nil] at hblen
    simp only [Option.isSome_none, Bool.false_eq_true, false_iff]
    omega
  · rw [if_neg hb]
    simp only [Option.isSome_some, true_iff]
    have hne : boxes.length ≠ 0 := by
      intro hc
      exact hb (List.isEmpty_iff.mpr (List.length_eq_zero.mp hc))
    omega

theorem buildTarget_some_elim {idx : Int} {mask : Grid} {t : Target}
    (h : buildTarget idx mask = some t) :
    ∃ boxes, getBoxes (instMasksOf mask) = some boxes ∧
      t = { boxes := boxes
            labels := List.replicate ((uniqueSorted mask.flatten).drop 1).length 1
            masksT := instMasksOf mask
            imageId := idx
            area := boxes.map (fun b => (b.ymax - b.ymin) * (b.xmax - b.xmin))
            iscrowd := List.replicate ((uniqueSorted mask.flatten).drop 1).length 0 } := by
  rw [buildTarget_eq] at h
  cases hgb : getBoxes (instMasksOf mask) with
  | none => rw [hgb] at h; cases h
  | some boxes =>
    rw [hgb, Option.some_bind] at h
    by_cases hb : boxes.isEmpty
    · rw [if_pos hb] at h
      cases h
    · rw [if_neg hb] at h
      injection h with ht
      exact ⟨boxes, rfl, ht.symm⟩

theorem forall₂_exists_right {α β : Type} {r : α → β → Prop}
    {l1 : List α} {l2 : List β} (h : List.Forall₂ r l1 l2) :
    ∀ a ∈ l1, ∃ b ∈ l2, r a b := by
  induction h with
  | nil => intro a ha; cases ha
  | cons hr ht ih =>
    intro a ha
    rcases List.mem_cons.mp ha with h1 | h1
    · subst h1
      exact ⟨_, List.mem_cons_self _ _, hr⟩
    · rcases ih a h1 with ⟨b, hb, hrb⟩
      exact ⟨b, List.mem_cons_of_mem _ hb, hrb⟩

theorem forall₂_exists_left {α β : Type} {r : α → β → Prop}
    {l1 : List α} {l2 : List β} (h : List.Forall₂ r l1 l2) :
    ∀ b ∈ l2, ∃ a ∈ l1, r a b := by
  induction h with
  | nil => intro b hb; cases hb
  | cons hr ht ih =>
    intro b hb
    rcases List.mem_cons.mp hb with h1 | h1
    · subst h1
      exact ⟨_, List.mem_cons_self _ _, hr⟩
    · rcases ih b h1 with ⟨a, ha, hra⟩
      exact ⟨a, List.mem_cons_of_mem _ ha, hra⟩

theorem getItem_some_elim {env : String → Grid} {d : PennFudanDataset}
    {idx : Int} {f : String} {t : Target}
    (htr : d.transforms = none) (h : pennFudanGetItem env d idx = some (f, t)) :
    ∃ mf, pyGet d.masks idx = some mf ∧ buildTarget idx (env mf) = some t := by
  unfold pennFudanGetItem at h
  split at h
  · rename_i imgF maskF himg hmask
    rw [Option.map_eq_some'] at h
    obtain ⟨t0, hbt, happ⟩ := h
    rw [htr] at happ
    simp only [applyTransforms, Prod.mk.injEq] at happ
    obtain ⟨hf, ht2⟩ := happ
    exact ⟨maskF, hmask, ht2 ▸ hbt⟩
  · cases h

/-! ## Claim C7 -/

/-- Claim C7: a degenerate (zero-true-pixel) instance mask surfaces as an
error: the box-derivation stage of `__getitem__` (`getBoxes`, whose `np.min`
on an empty coordinate list raises `ValueError`, modelled as `none`) aborts
the whole sample; and every target `__getitem__` actually returns has one box
per instance mask and no degenerate mask — a degenerate instance is never
silently dropped. -/
theorem claimC7_degenerate_mask_error :
    (∀ ms : List BoolGrid, (∃ m ∈ ms, truePixels m = []) → getBoxes ms = none) ∧
    (∀ (env : String → Grid) (d : PennFudanDataset) (idx : Int) (f : String)
       (t : Target), d.transforms = none → pennFudanGetItem env d idx = some (f, t) →
       t.boxes.length = t.masksT.length ∧ ∀ m ∈ t.masksT, truePixels m ≠ []) := by
  constructor
  · intro ms hex
    obtain ⟨m, hm, hnil⟩ := hex
    unfold getBoxes
    apply seqOpt_eq_none_of_mem
    have hbox : boxOfMask m = none := by
      unfold boxOfMask
      rw [hnil]
    rw [← hbox]
    exact List.mem_map.mpr ⟨m, hm, rfl⟩
  · intro env d idx f t htr h
    obtain ⟨mf, hmask, hbt⟩ := getItem_some_elim htr h
    obtain ⟨boxes, hgb, ht⟩ := buildTarget_some_elim hbt
    have hf2 := getBoxes_forall₂ hgb
    subst ht
    refine ⟨hf2.length_eq.symm, ?_⟩
    intro m hm
    obtain ⟨b, hbmem, hbox⟩ := forall₂_exists_right hf2 m hm
    exact boxOfMask_ne_nil_of_some hbox

/-- Witness for claim C7: a concrete all-false (degenerate) instance mask
makes the box-derivation stage fail. -/
theorem claimC7_witness :
    (∃ m ∈ ([[[false]]] : List BoolGrid), truePixels m = []) ∧
    getBoxes [[[false]]] = none :=
  ⟨⟨[[false]], List.mem_cons_self _ _, rfl⟩,
   claimC7_degenerate_mask_error.1 [[[false]]]
     ⟨[[false]], List.mem_cons_self _ _, rfl⟩⟩

/-! ## Claim C10 -/

/-- Claim C10: every target returned by `__getitem__` (with no transforms
hook) has, writing `num_objs` for the number of decomposed instance masks:
labels all equal to 1, iscrowd flags all equal to 0, per-instance
`area = (ymax - ymin) * (xmax - xmin)` computed from its bounding box, and
labels/iscrowd/area (and boxes) vectors all of length `num_objs`. -/
theorem claimC10_target_fields (env : String → Grid) (d : PennFudanDataset)
    (idx : Int) (f : String) (t : Target)
    (htr : d.transforms = none)
    (h : pennFudanGetItem env d idx = some (f, t)) :
    t.labels = List.replicate t.masksT.length 1 ∧
    t.iscrowd = List.replicate t.masksT.length 0 ∧
    t.area = t.boxes.map (fun b => (b.ymax - b.ymin) * (b.xmax - b.xmin)) ∧
    t.labels.length = t.masksT.length ∧
    t.iscrowd.length = t.masksT.length ∧
    t.area.length = t.masksT.length ∧
    t.boxes.length = t.masksT.length := by
  obtain ⟨mf, hmask, hbt⟩ := getItem_some_elim htr h
  obtain ⟨boxes, hgb, ht⟩ := buildTarget_some_elim hbt
  have hboxlen : boxes.length = (instMasksOf (env mf)).length :=
    (getBoxes_forall₂ hgb).length_eq.symm
  subst ht
  simp only [instMasksOf, List.length_map] at hboxlen ⊢
  simp [List.length_replicate, hboxlen]

/-- A mask environment whose single mask image contains background plus two
non-background colors, each a single pixel. -/
def envTwoColors : String → Grid := fun _ => [[0, 1, 2]]

/-- A one-image dataset with no transforms hook. -/
def dsOneImage : PennFudanDataset := pennFudanInit ["p1.png"] ["m1.png"] none

/-- The target `__getitem__` produces for `envTwoColors` / `dsOneImage` at
index 0 (computed by hand from the embedding). -/
def tgtTwoColors : Target :=
  { boxes := [⟨1, 0, 1, 0⟩, ⟨2, 0, 2, 0⟩]
    labels := [1, 1]
    masksT := [[[false, true, false]], [[false, false, true]]]
    imageId := 0
    area := [0, 0]
    iscrowd := [0, 0] }

/-- Witness for claim C10 at a concrete dataset and mask image. -/
theorem claimC10_witness :
    pennFudanGetItem envTwoColors dsOneImage 0 = some ("p1.png", tgtTwoColors) ∧
    (tgtTwoColors.labels = List.replicate tgtTwoColors.masksT.length 1 ∧
     tgtTwoColors.iscrowd = List.replicate tgtTwoColors.masksT.length 0 ∧
     tgtTwoColors.area = tgtTwoColors.boxes.map
       (fun b => (b.ymax - b.ymin) * (b.xmax - b.xmin)) ∧
     tgtTwoColors.labels.length = tgtTwoColors.masksT.length ∧
     tgtTwoColors.iscrowd.length = tgtTwoColors.masksT.length ∧
     tgtTwoColors.area.length = tgtTwoColors.masksT.length ∧
     tgtTwoColors.boxes.length = tgtTwoColors.masksT.length) :=
  ⟨by decide,
   claimC10_target_fields envTwoColors dsOneImage 0 "p1.png" tgtTwoColors rfl (by decide)⟩

/-! ## Claim C4 -/

/-- The non-background colors of a mask image: its distinct pixel values
other than the background value 0 (spec vocabulary, used to state C4). -/
def nonBgColors (g : Grid) : List Nat :=
  (uniqueSorted g.flatten).filter (fun c => c != 0)

/-- Claim C4 (amended): for every mask image that contains the background
color 0 and exactly 2 distinct non-background colors, `__getitem__` (with no
transforms hook) returns a target with exactly 2 boolean instance masks and
2 bounding boxes, each box derived from its mask by `boxOfMask` (the min/max
column and min/max row of the mask's true pixels), with `xmax ≥ xmin` and
`ymax ≥ ymin`.  The amendment weakens the original strict inequalities to
non-strict ones and adds the background-pixel hypothesis; both changes are
forced by `claimC4_counterexample`. -/
theorem claimC4_two_instances (env : String → Grid) (d : PennFudanDataset)
    (idx : Int) (f : String) (t : Target) (mf : String)
    (htr : d.transforms = none)
    (hm : pyGet d.masks idx = some mf)
    (h0 : 0 ∈ (env mf).flatten)
    (h2 : (nonBgColors (env mf)).length = 2)
    (h : pennFudanGetItem env d idx = some (f, t)) :
    t.masksT.length = 2 ∧ t.boxes.length = 2 ∧
    List.Forall₂ (fun m b => boxOfMask m = some b) t.masksT t.boxes ∧
    ∀ b ∈ t.boxes, b.xmin ≤ b.xmax ∧ b.ymin ≤ b.ymax := by
  obtain ⟨mf2, hmask2, hbt⟩ := getItem_some_elim htr h
  rw [hm] at hmask2
  injection hmask2 with hmf
  subst hmf
  obtain ⟨boxes, hgb, ht⟩ := buildTarget_some_elim hbt
  obtain ⟨rest, hu, h0rest⟩ := uniqueSorted_zero_head h0
  have hobj : (uniqueSorted (env mf).flatten).drop 1 = rest := by rw [hu]; rfl
  have hrest : nonBgColors (env mf) = rest := by
    unfold nonBgColors
    rw [hu, List.filter_cons]
    simp only [bne_self_eq_false, Bool.false_eq_true, if_false]
    apply List.filter_eq_self.mpr
    intro c hc
    have hcne : c ≠ 0 := by
      intro hceq
      exact h0rest (hceq ▸ hc)
    simp [hcne]
  have hrl : rest.length = 2 := by rw [← hrest]; exact h2
  have hf2 := getBoxes_forall₂ hgb
  subst ht
  refine ⟨?_, ?_, hf2, ?_⟩
  · simp [instMasksOf, hobj, hrl]
  · rw [← hf2.length_eq]
    simp [instMasksOf, hobj, hrl]
  · intro b hb
    obtain ⟨m, hmem, hbox⟩ := forall₂_exists_left hf2 b hb
    exact boxOfMask_bounds hbox

/-- A mask environment whose single mask image has exactly 2 non-background
colors (1 and 2) and no background pixel at all. -/
def envNoBackground : String → Grid := fun _ => [[1, 2]]

/-- A second one-image dataset (no transforms hook) for the C4
counterexample. -/
def dsOneImageB : PennFudanDataset := pennFudanInit ["p.png"] ["m.png"] none

/-- Claim C4 counterexample: the mask image `[[1, 2]]` contains exactly 2
non-background colors, yet `__getitem__` returns a target with only 1 mask
and 1 box — `obj_ids = np.unique(mask)[1:]` unconditionally discards the
smallest color as "background", here the genuine instance color 1.  Moreover
the single returned box is degenerate (`xmax = xmin`, from a single-pixel
instance), refuting the claim's strict `xmax > xmin`. -/
theorem claimC4_counterexample :
    (nonBgColors [[1, 2]]).length = 2 ∧
    (pennFudanGetItem envNoBackground dsOneImageB 0).map
      (fun s => s.2.masksT.length) = some 1 ∧
    (pennFudanGetItem envNoBackground dsOneImageB 0).map
      (fun s => s.2.boxes) = some [⟨1, 0, 1, 0⟩] ∧
    ¬(1 : Nat) < 1 := by
  decide

/-- Witness for claim C4 at a concrete mask image with background and two
single-pixel instances. -/
theorem claimC4_witness :
    dsOneImage.transforms = none ∧
    pyGet dsOneImage.masks 0 = some "m1.png" ∧
    0 ∈ (envTwoColors "m1.png").flatten ∧
    (nonBgColors (envTwoColors "m1.png")).length = 2 ∧
    pennFudanGetItem envTwoColors dsOneImage 0 = some ("p1.png", tgtTwoColors) ∧
    (tgtTwoColors.masksT.length = 2 ∧ tgtTwoColors.boxes.length = 2 ∧
     List.Forall₂ (fun m b => boxOfMask m = some b)
       tgtTwoColors.masksT tgtTwoColors.boxes ∧
     ∀ b ∈ tgtTwoColors.boxes, b.xmin ≤ b.xmax ∧ b.ymin ≤ b.ymax) :=
  ⟨rfl, by decide, by decide, by decide, by decide,
   claimC4_two_instances envTwoColors dsOneImage 0 "p1.png" tgtTwoColors "m1.png"
     rfl (by decide) (by decide) (by decide) (by decide)⟩

/-! ## Claim C2 -/

/-- A mask environment used for the C2 and C3 instances. -/
def envConst01 : String → Grid := fun _ => [[0, 1]]

theorem getItem_isSome_iff (env : String → Grid) (d : PennFudanDataset) (i : Int) :
    (pennFudanGetItem env d i).isSome ↔
      ((pyGet d.imgs i).isSome ∧
       ∃ mf, pyGet d.masks i = some mf ∧ (buildTarget i (env mf)).isSome) := by
  unfold pennFudanGetItem
  cases pyGet d.imgs i with
  | none => simp
  | some imgF =>
    cases pyGet d.masks i with
    | none => simp
    | some mf => simp [isSome_optionMap]

/-- Claim C2 counterexample: `__init__` performs no count validation, so a
dataset constructed from 2 enumerated input images but only 1 mask file is
built successfully (its length is 2, the number of input files) and even
serves sample 0 — construction does not fail, contradicting the claim that
mismatched listings fail construction before any sample is served. -/
theorem claimC2_counterexample :
    pennFudanLen (pennFudanInit ["a.png", "b.png"] ["a_mask.png"] none) = 2 ∧
    (pennFudanGetItem envConst01
      (pennFudanInit ["a.png", "b.png"] ["a_mask.png"] none) 0).isSome = true := by
  have h1 : (pennFudanInit ["a.png", "b.png"] ["a_mask.png"] none).imgs.length = 2 := by
    rw [show (pennFudanInit ["a.png", "b.png"] ["a_mask.png"] none).imgs
        = List.insertionSort (· ≤ ·) ["a.png", "b.png"] from rfl,
      List.length_insertionSort]
    rfl
  have h2 : (pennFudanInit ["a.png", "b.png"] ["a_mask.png"] none).masks.length = 1 := by
    rw [show (pennFudanInit ["a.png", "b.png"] ["a_mask.png"] none).masks
        = List.insertionSort (· ≤ ·) ["a_mask.png"] from rfl,
      List.length_insertionSort]
    rfl
  constructor
  · exact h1
  · rw [getItem_isSome_iff]
    refine ⟨?_, "a_mask.png", ?_, ?_⟩
    · rw [pyGet_isSome_iff, h1]
      omega
    · rfl
    · decide

/-- Claim C2 (amended): construction never validates the listing counts and
always succeeds; the dataset length equals the number of enumerated input
files regardless of the mask count; with fewer masks than images the
mismatch surfaces only lazily, as an out-of-range indexing failure when a
sample at an index at or beyond the mask count is requested. -/
theorem claimC2_init_no_validation (imgListing maskListing : List String)
    (transforms : Option ((String × Target) → (String × Target))) :
    pennFudanLen (pennFudanInit imgListing maskListing transforms)
      = imgListing.length ∧
    ∀ (env : String → Grid) (idx : Int),
      ((pennFudanInit imgListing maskListing transforms).masks.length : Int) ≤ idx →
      pennFudanGetItem env (pennFudanInit imgListing maskListing transforms) idx
        = none := by
  constructor
  · simp [pennFudanLen, pennFudanInit]
  · intro env idx hidx
    have hmask : pyGet (pennFudanInit imgListing maskListing transforms).masks idx
        = none := by
      rw [← Option.not_isSome_iff_eq_none, pyGet_isSome_iff]
      omega
    unfold pennFudanGetItem
    rw [hmask]
    cases pyGet (pennFudanInit imgListing maskListing transforms).imgs idx <;> rfl

/-- Witness for claim C2: a concrete 2-image, 1-mask dataset has length 2 and
fails lazily at index 5. -/
theorem claimC2_witness :
    pennFudanLen (pennFudanInit ["b.png", "a.png"] ["m.png"] none) = 2 ∧
    ((pennFudanInit ["b.png", "a.png"] ["m.png"] none).masks.length : Int) ≤ 5 ∧
    pennFudanGetItem envConst01 (pennFudanInit ["b.png", "a.png"] ["m.png"] none) 5
      = none :=
  ⟨(claimC2_init_no_validation ["b.png", "a.png"] ["m.png"] none).1, by decide,
   (claimC2_init_no_validation ["b.png", "a.png"] ["m.png"] none).2 envConst01 5
     (by decide)⟩

/-! ## Claim C3 -/

/-- Claim C3 counterexample: on a 1-sample dataset, `__getitem__ (-1)`
succeeds — Python list indexing serves negative indices down to `-len` by
wrap-around instead of failing, contradicting the claim that every `i < 0`
fails with an out-of-range error. -/
theorem claimC3_counterexample :
    pennFudanLen (pennFudanInit ["a.png"] ["m.png"] none) = 1 ∧
    (pennFudanGetItem envConst01
      (pennFudanInit ["a.png"] ["m.png"] none) (-1)).isSome = true := by
  decide

/-- Claim C3 (amended): for a dataset whose image and mask listings have
equal length L, `__getitem__ i` returns a sample exactly when the index is
in Python range (`-L ≤ i < L`, wrap-around serving negative indices down to
`-L`) AND the referenced mask image decodes to a grid with at least two
distinct pixel values (at least one non-background instance to decompose).
Out of range it fails with an out-of-range error; in range with a degenerate
(≤ 1 distinct pixel value) mask it also fails, because the source raises
`IndexError` at the `area` line on the empty 1-D `boxes` tensor. -/
theorem claimC3_get_range (env : String → Grid) (d : PennFudanDataset)
    (hlen : d.masks.length = d.imgs.length) (i : Int) :
    (pennFudanGetItem env d i).isSome ↔
      ((-(d.imgs.length : Int) ≤ i ∧ i < (d.imgs.length : Int)) ∧
       ∀ mf, pyGet d.masks i = some mf →
         2 ≤ (uniqueSorted (env mf).flatten).length) := by
  rw [getItem_isSome_iff]
  constructor
  · rintro ⟨h1, mf, hmf, hb⟩
    have hr := (pyGet_isSome_iff d.imgs i).mp h1
    refine ⟨hr, ?_⟩
    intro mf2 hmf2
    rw [hmf] at hmf2
    injection hmf2 with he
    subst he
    exact (buildTarget_isSome_iff i (env mf)).mp hb
  · rintro ⟨hr, hcond⟩
    have h1 : (pyGet d.imgs i).isSome := (pyGet_isSome_iff d.imgs i).mpr hr
    have h2 : (pyGet d.masks i).isSome := by
      rw [pyGet_isSome_iff, hlen]
      exact hr
    obtain ⟨mf, hmf⟩ := Option.isSome_iff_exists.mp h2
    exact ⟨h1, mf, hmf, (buildTarget_isSome_iff i (env mf)).mpr (hcond mf hmf)⟩

/-- Witness for claim C3 at a concrete 1-sample dataset whose mask image
`[[0, 1]]` has two distinct pixel values, at index 0. -/
theorem claimC3_witness :
    (pennFudanInit ["a.png"] ["m.png"] none).masks.length
      = (pennFudanInit ["a.png"] ["m.png"] none).imgs.length ∧
    ((pennFudanGetItem envConst01 (pennFudanInit ["a.png"] ["m.png"] none) 0).isSome
      ↔ ((-(((pennFudanInit ["a.png"] ["m.png"] none).imgs.length : Nat) : Int) ≤ 0 ∧
          0 < (((pennFudanInit ["a.png"] ["m.png"] none).imgs.length : Nat) : Int)) ∧
         ∀ mf, pyGet (pennFudanInit ["a.png"] ["m.png"] none).masks 0 = some mf →
           2 ≤ (uniqueSorted (envConst01 mf).flatten).length)) :=
  ⟨by decide, claimC3_get_range envConst01 (pennFudanInit ["a.png"] ["m.png"] none)
    (by decide) 0⟩

/-! ## Claim C8 -/

/-- Claim C8: construction sorts both directory listings lexicographically —
the stored `imgs`/`masks` are sorted permutations of the listings — so any
two constructions over (any permutations of) the same directory listing
store identical filename lists, hence the same index-to-sample mapping in
every run. -/
theorem claimC8_sort_deterministic (l1 l2 m1 m2 : List String)
    (t1 t2 : Option ((String × Target) → (String × Target)))
    (hl : l1.Perm l2) (hm : m1.Perm m2) :
    (pennFudanInit l1 m1 t1).imgs = (pennFudanInit l2 m2 t2).imgs ∧
    (pennFudanInit l1 m1 t1).masks = (pennFudanInit l2 m2 t2).masks ∧
    List.Sorted (· ≤ ·) (pennFudanInit l1 m1 t1).imgs ∧
    List.Sorted (· ≤ ·) (pennFudanInit l1 m1 t1).masks ∧
    (pennFudanInit l1 m1 t1).imgs.Perm l1 ∧
    (pennFudanInit l1 m1 t1).masks.Perm m1 := by
  have key : ∀ a b : List String, a.Perm b →
      List.insertionSort (· ≤ ·) a = List.insertionSort (· ≤ ·) b := by
    intro a b hab
    exact List.eq_of_perm_of_sorted
      ((List.perm_insertionSort _ a).trans
        (hab.trans (List.perm_insertionSort _ b).symm))
      (List.sorted_insertionSort _ a) (List.sorted_insertionSort _ b)
  exact ⟨key _ _ hl, key _ _ hm, List.sorted_insertionSort _ _,
         List.sorted_insertionSort _ _, List.perm_insertionSort _ _,
         List.perm_insertionSort _ _⟩

/-- Witness for claim C8: two permuted listings of the same two filenames
construct identical `imgs` lists. -/
theorem claimC8_witness :
    (["b.png", "a.png"] : List String).Perm ["a.png", "b.png"] ∧
    (pennFudanInit ["b.png", "a.png"] ["m.png"] none).imgs
      = (pennFudanInit ["a.png", "b.png"] ["m.png"] none).imgs :=
  ⟨List.Perm.swap "a.png" "b.png" [],
   (claimC8_sort_deterministic ["b.png", "a.png"] ["a.png", "b.png"]
     ["m.png"] ["m.png"] none none (List.Perm.swap "a.png" "b.png" [])
     (List.Perm.refl _)).1⟩

/-! ## Claim C9 -/

/-- Claim C9: the train/eval split index sets, fixed once at partition time
(`indices[:-50]` and `indices[-50:]` of the `torch.randperm` output, which is
duplicate-free, modelled by the `Nodup` hypothesis), are disjoint; and the
dataset's sample count is unchanged by every operation a training run
performs on it (the only dataset operation, `__getitem__`, threads the state
through unchanged). -/
theorem claimC9_disjoint_split_and_stable_len :
    (∀ (indices : List Nat), indices.Nodup →
      ∀ x ∈ trainIndices indices, x ∉ testIndices indices) ∧
    (∀ (env : String → Grid) (d : PennFudanDataset) (ops : List Int),
      pennFudanLen (runDataset env d ops).1 = pennFudanLen d) := by
  constructor
  · intro indices hnd x hx hx2
    unfold trainIndices at hx
    unfold testIndices at hx2
    have h1 : indices.take (indices.length - 50)
        ++ indices.drop (indices.length - 50) = indices :=
      List.take_append_drop _ _
    rw [← h1] at hnd
    exact (List.nodup_append.mp hnd).2.2 hx hx2
  · intro env d ops
    induction ops with
    | nil => rfl
    | cons i is ih => exact ih

/-- Witness for claim C9 at the concrete duplicate-free index list
`0, …, 50`: index 0 lands in the training split and not in the evaluation
split. -/
theorem claimC9_witness :
    (List.range 51).Nodup ∧
    0 ∈ trainIndices (List.range 51) ∧
    0 ∉ testIndices (List.range 51) :=
  ⟨List.nodup_range 51, by decide,
   claimC9_disjoint_split_and_stable_len.1 (List.range 51)
     (List.nodup_range 51) 0 (by decide)⟩
